import Mathlib

set_option maxHeartbeats 1000000

/-
Verification of the Torque2D Android file-io layer
(engine/source/platformAndroid/AndroidFileio.cpp).

The File class wraps a native buffered stream (a FILE pointer).  Its pure
content is the control flow around the results of the OS calls, so the
embedding gives each operation the OS-call results as explicit oracle
arguments (the fopen result, the fclose return value, the errno value in
force when a call fails, the number of bytes fwrite accepted) and models the
stream of a regular file as its byte contents plus an offset.  The fatal
assertions of the source are preconditions; theorems carry them as
hypotheses.
-/

namespace Torque

/-- Modelled from the spec: the status enumeration of the File class.  The
header platformFileIO.h is not among the sources; the spec lists the statuses
Closed, Ok, IOError, UnknownError and EOS, which are exactly the ones the
implementation file uses. -/
inductive Status where
  | Ok
  | IOError
  | EOS
  | Closed
  | UnknownError
deriving DecidableEq, Repr

/-- The errno values that File.setStatus distinguishes; every further value
behaves like the catch-all constructor. -/
inductive Errno where
  | eacces
  | ebadf
  | einval
  | enoent
  | enametoolong
  | other
deriving DecidableEq, Repr

/-- Embedding of File::setStatus() (AndroidFileio.cpp lines 298-314): EACCES
maps to IOError; EBADF, EINVAL, ENOENT, ENAMETOOLONG and every other value
fall through to the default case and map to UnknownError. -/
def statusOfErrno : Errno → Status
  | .eacces => .IOError
  | _ => .UnknownError

/-- Model of a native buffered stream over a regular file: the byte contents,
the current offset, and a flag injecting a failing ftell (ftell returns -1
exactly when the flag is set). -/
structure FStream where
  contents : List Nat
  pos : Nat
  tellFails : Bool
deriving DecidableEq, Repr

def u32max : Nat := 4294967295

/-- The value of ftell as read back through a U32 variable: the error result
-1 becomes 0xffffffff, a genuine offset is reduced mod 2^32. -/
def ftellU32 (s : FStream) : Nat :=
  if s.tellFails then u32max else s.pos % 4294967296

/-- The File handle: status, capability bitmask and the native stream (none
models a NULL handle). -/
structure File where
  currentStatus : Status
  capability : Nat
  handle : Option FStream
deriving DecidableEq, Repr

/-- File::File() (lines 76-80): after construction the status is Closed, the
capability mask is 0 and the handle is NULL. -/
def File.init : File := { currentStatus := .Closed, capability := 0, handle := none }

/-- Modelled from the spec: the two capability bits (platformFileIO.h is not
among the sources; the spec describes a two-bit read/write capability
bitmask). -/
def FileRead : Nat := 1

/-- Modelled from the spec: the write capability bit. -/
def FileWrite : Nat := 2

/-- File::hasCapability (lines 392-395). -/
def File.hasCapability (f : File) (cap : Nat) : Bool :=
  cap &&& f.capability != 0

/-- Embedding of File::close (lines 271-285).  fcloseOk is the oracle for the
fclose return value and e the errno in force when it fails.  The result is
the new handle state, the returned status, and a flag recording whether
fclose was invoked on the native stream. -/
def File.close (f : File) (fcloseOk : Bool) (e : Errno) : File × Status × Bool :=
  if f.currentStatus = .Closed then (f, f.currentStatus, false)
  else
    match f.handle with
    | some _ =>
      if fcloseOk then
        ({ f with handle := none, currentStatus := .Closed }, .Closed, true)
      else
        ({ f with currentStatus := statusOfErrno e }, statusOfErrno e, true)
    | none => ({ f with handle := none, currentStatus := .Closed }, .Closed, false)

/-- File::~File() (lines 89-93): close, then null the handle member. -/
def File.destruct (f : File) (fcloseOk : Bool) (e : Errno) : File :=
  { (File.close f fcloseOk e).1 with handle := none }

/-- Embedding of File::getSize (lines 230-247): the size is consulted only
for Ok/EOS handles; fstat on a valid handle of a regular file is modelled as
succeeding and reporting the content length (through a U32 field). -/
def File.getSize (f : File) : Nat :=
  if f.currentStatus = .Ok ∨ f.currentStatus = .EOS then
    match f.handle with
    | some s => s.contents.length % 4294967296
    | none => 0
  else 0

/-- File::getPosition (lines 166-172): ftell read through a U32.  The asserts
(file open, valid handle) are preconditions of the theorems. -/
def File.getPosition (f : File) : Nat :=
  match f.handle with
  | some s => ftellU32 s
  | none => 0

/-- Embedding of File::setPosition (lines 186-223).  position is the S32
argument, e the errno oracle consulted when the post-seek ftell fails.  The
asserts (file open, valid handle, non-negative target offset) are
preconditions of the theorems; fseek is modelled as moving the offset to the
requested target. -/
def File.setPosition (f : File) (position : Int) (absolutePos : Bool) (e : Errno) :
    File × Status :=
  if f.currentStatus ≠ .Ok ∧ f.currentStatus ≠ .EOS then (f, f.currentStatus)
  else
    match f.handle with
    | none => (f, f.currentStatus)
    | some s =>
      let target : Int := if absolutePos then position else (s.pos : Int) + position
      let s1 : FStream := { s with pos := target.toNat }
      let f1 : File := { f with handle := some s1 }
      let finalPos := ftellU32 s1
      if finalPos = u32max then
        ({ f1 with currentStatus := statusOfErrno e }, statusOfErrno e)
      else if finalPos ≥ File.getSize f1 then
        ({ f1 with currentStatus := .EOS }, .EOS)
      else
        ({ f1 with currentStatus := .Ok }, .Ok)

inductive AccessMode where
  | Read
  | Write
  | ReadWrite
  | WriteAppend
deriving DecidableEq, Repr

/-- Embedding of File::open (lines 104-161).  closeOk and closeErr drive the
implicit close of a still-open handle; fopenRes is the stream fopen produced
(none when the native stream cannot be acquired), openErr the errno observed
on that failure, and posErr the errno oracle for the setPosition(0) call
performed in ReadWrite mode.  The name open is a Lean keyword, hence
openFile. -/
def File.openFile (f : File) (closeOk : Bool) (closeErr : Errno)
    (fopenRes : Option FStream) (openErr : Errno) (posErr : Errno)
    (mode : AccessMode) : File × Status :=
  let f0 := if f.currentStatus ≠ .Closed then (File.close f closeOk closeErr).1 else f
  let f1 := { f0 with handle := fopenRes }
  match fopenRes with
  | none => ({ f1 with currentStatus := statusOfErrno openErr }, statusOfErrno openErr)
  | some _ =>
    let cap : Nat :=
      match mode with
      | .Read => FileRead
      | .Write => FileWrite
      | .WriteAppend => FileWrite
      | .ReadWrite => FileRead ||| FileWrite
    let f2 := { f1 with capability := cap, currentStatus := Status.Ok }
    if mode = .ReadWrite then
      let f3 := (File.setPosition f2 0 true posErr).1
      (f3, f3.currentStatus)
    else (f2, f2.currentStatus)

/-- Embedding of File::read (lines 330-354).  The stream sits on a regular
file, so fread returns min size available and advances the offset by that
amount.  ptr records whether the bytesRead out-parameter is non-null; the
last component is the value stored through it (none when it is left
untouched).  The third component is the list of bytes copied into dst. -/
def File.read (f : File) (size : Nat) (ptr : Bool) :
    File × Status × List Nat × Option Nat :=
  if f.currentStatus ≠ .Ok ∨ size = 0 then (f, f.currentStatus, [], none)
  else
    match f.handle with
    | none => (f, f.currentStatus, [], none)
    | some s =>
      let bytes := (s.contents.drop s.pos).take size
      let n := bytes.length
      let s1 : FStream := { s with pos := s.pos + n }
      let st := if n ≠ size then Status.EOS else f.currentStatus
      ({ f with handle := some s1, currentStatus := st }, st, bytes,
        if ptr then some n else none)

/-- Embedding of File::write (lines 362-386).  nBytes is the fwrite oracle
(the count of bytes the native stream accepted, at most size), e the errno in
force after a short write.  No claim observes the transferred data, so the
stream contents are left unmodelled; the status plumbing and the
bytesWritten out-parameter are exact. -/
def File.write (f : File) (size : Nat) (nBytes : Nat) (e : Errno) (ptr : Bool) :
    File × Status × Option Nat :=
  if (f.currentStatus ≠ .Ok ∧ f.currentStatus ≠ .EOS) ∨ size = 0 then
    (f, f.currentStatus, none)
  else
    let f1 := if nBytes ≠ size then { f with currentStatus := statusOfErrno e } else f
    (f1, f1.currentStatus, if ptr then some nBytes else none)

/-- A concrete open handle used by witnesses and counterexamples: status Ok,
the given capability mask, and a healthy stream with the given contents and
offset. -/
def okFile (bytes : List Nat) (pos : Nat) (cap : Nat) : File :=
  { currentStatus := Status.Ok, capability := cap, handle := some ⟨bytes, pos, false⟩ }

/-- File kind reported by stat. -/
inductive FKind where
  | reg
  | dir
deriving DecidableEq, Repr

/-- One entry of the model filesystem: a normalized path (no trailing
separator), its kind, its size in bytes, and its change and modification
times. -/
structure Ent where
  path : List Char
  kind : FKind
  size : Nat
  ctime : Nat
  mtime : Nat
deriving DecidableEq, Repr

/-- The model filesystem: a finite list of entries keyed by path.  The root
directory exists implicitly. -/
abbrev OsFs := List Ent

def lookupFs (fs : OsFs) (p : List Char) : Option Ent :=
  fs.find? (fun ent => ent.path == p)

/-- Drop every trailing separator, the way path resolution treats a/b/. -/
def dropTrailingSlashes (p : List Char) : List Char :=
  (p.reverse.dropWhile (fun c => c == '/')).reverse

/-- POSIX stat over the model: an empty path never resolves (ENOENT); a path
with trailing separators resolves exactly when the stripped path is the root
or an existing directory (ENOTDIR otherwise); any other path resolves by
exact lookup. -/
def statP (fs : OsFs) (p : List Char) : Option Ent :=
  if p = [] then none
  else
    let q := dropTrailingSlashes p
    if q = p then lookupFs fs p
    else if q = [] then some { path := [], kind := FKind.dir, size := 0, ctime := 0, mtime := 0 }
    else
      match lookupFs fs q with
      | some ent => if ent.kind = FKind.dir then some ent else none
      | none => none

/-- Platform::fileDelete (lines 46-55): only a null name is rejected up
front; any other name is handed to remove, which unlinks the entry when the
path resolves and fails otherwise (an empty path never resolves, per
POSIX). -/
def Platform.fileDelete (fs : OsFs) (name : Option String) : OsFs × Bool :=
  match name with
  | none => (fs, false)
  | some n =>
    match statP fs n.toList with
    | some _ => (fs.filter (fun ent => ent.path != dropTrailingSlashes n.toList), true)
    | none => (fs, false)

/-- dFileTouch (lines 59-66): null and empty paths are rejected; otherwise
utimes(path, NULL) stamps the entry with the current time, failing when the
path does not resolve.  Only the modification time is tracked by the
model. -/
def dFileTouch (fs : OsFs) (path : Option String) (now : Nat) : OsFs × Bool :=
  match path with
  | none => (fs, false)
  | some p =>
    if p = "" then (fs, false)
    else
      match statP fs p.toList with
      | some _ =>
        (fs.map (fun ent =>
           if ent.path = dropTrailingSlashes p.toList then { ent with mtime := now }
           else ent), true)
      | none => (fs, false)

/-- Platform::getFileTimes (lines 411-433): the change time stands in for
the creation time; each out-parameter is written only when non-null. -/
def Platform.getFileTimes (fs : OsFs) (path : Option String)
    (createPtr modifyPtr : Bool) : Bool × Option Nat × Option Nat :=
  match path with
  | none => (false, none, none)
  | some p =>
    if p = "" then (false, none, none)
    else
      match statP fs p.toList with
      | some ent =>
        (true, if createPtr then some ent.ctime else none,
          if modifyPtr then some ent.mtime else none)
      | none => (false, none, none)

/-- Platform::isFile (lines 565-580). -/
def Platform.isFile (fs : OsFs) (path : Option String) : Bool :=
  match path with
  | none => false
  | some p =>
    if p = "" then false
    else
      match statP fs p.toList with
      | some ent => ent.kind == FKind.reg
      | none => false

/-- Platform::isDirectory (lines 584-599). -/
def Platform.isDirectory (fs : OsFs) (path : Option String) : Bool :=
  match path with
  | none => false
  | some p =>
    if p = "" then false
    else
      match statP fs p.toList with
      | some ent => ent.kind == FKind.dir
      | none => false

/-- Platform::getFileSize (lines 602-613). -/
def Platform.getFileSize (fs : OsFs) (path : Option String) : Nat :=
  match path with
  | none => 0
  | some p =>
    if p = "" then 0
    else
      match statP fs p.toList with
      | some ent => ent.size
      | none => 0

/-- Platform::isSubDirectory (lines 617-622): no null or empty guard; the
two arguments are joined with a separator and handed to isDirectory. -/
def Platform.isSubDirectory (fs : OsFs) (pathParent pathSub : String) : Bool :=
  Platform.isDirectory fs (some (pathParent ++ "/" ++ pathSub))

/-- Index of the last separator of a path, the strrchr of the source. -/
def findLastSlash : List Char → Option Nat
  | [] => none
  | c :: rest =>
    match findLastSlash rest with
    | some k => some (k + 1)
    | none => if c = '/' then some 0 else none

/-- POSIX mkdir over the model: trailing separators are tolerated; creation
fails when the target already exists (EEXIST) or the parent directory is
missing (ENOENT); the root and the current directory always exist as
parents.  Times of fresh directories are not claim-relevant and are set
to 0. -/
def mkdirP (fs : OsFs) (p : List Char) : OsFs × Bool :=
  let q := dropTrailingSlashes p
  if q = [] then (fs, false)
  else if (lookupFs fs q).isSome then (fs, false)
  else
    let newEnt : Ent := { path := q, kind := FKind.dir, size := 0, ctime := 0, mtime := 0 }
    match findLastSlash q with
    | none => (fs ++ [newEnt], true)
    | some k =>
      if q.take k = [] then (fs ++ [newEnt], true)
      else
        match lookupFs fs (q.take k) with
        | some ent => if ent.kind = FKind.dir then (fs ++ [newEnt], true) else (fs, false)
        | none => (fs, false)

/-- Embedding of Platform::createPath (lines 437-483), with an explicit
recursion budget so that the definition stays structurally recursive and
computable.  Every recursive call shortens the path by at least one
character, so any budget of at least the path length never runs out; the
wrapper below supplies one.  Mirroring the source: if the target already
resolves, succeed immediately; strip one trailing separator (remembering
that the input denotes a directory); cut just after the last remaining
separator and recurse on that parent unless the separator is absent or
leading; finally mkdir the original input when it denoted a directory. -/
def createPathFuel (fuel : Nat) (fs : OsFs) (file : List Char) : OsFs × Bool :=
  match fuel with
  | 0 => (fs, false)
  | fuel + 1 =>
    if (statP fs file).isSome then (fs, true)
    else
      let isDirPath := file.getLast? = some '/'
      let parent0 := if file.getLast? = some '/' then file.dropLast else file
      match findLastSlash parent0 with
      | some k =>
        if k ≠ 0 then
          match createPathFuel fuel fs (parent0.take (k + 1)) with
          | (fs1, true) => if isDirPath then mkdirP fs1 file else (fs1, true)
          | (fs1, false) => (fs1, false)
        else if isDirPath then mkdirP fs file else (fs, true)
      | none => if isDirPath then mkdirP fs file else (fs, true)

/-- Platform::createPath: the fuel wrapper, with a budget the recursion can
never exhaust. -/
def Platform.createPath (fs : OsFs) (file : List Char) : OsFs × Bool :=
  createPathFuel (file.length + 1) fs file

/-- A node of the directory tree: a regular file, or a directory carrying
its openability (whether opendir succeeds on it) and its children in the
order OS iteration presents them.  Entry names never contain a separator,
so reopening basePath/path resolves to the structural child; dot entries may
appear among the children like any other name. -/
inductive FsNode where
  | file : FsNode
  | dir (openable : Bool) (children : List (String × FsNode)) : FsNode

/-- isGoodDirectory (lines 627-633): directory type, not a dot entry, not on
the exclusion list. -/
def isGoodDir (excl : List String) (name : String) (node : FsNode) : Bool :=
  (match node with
   | FsNode.dir _ _ => true
   | FsNode.file => false) &&
    name != "." && name != ".." && !(excl.contains name)

/-- The newpath construction of recurseDumpDirectories (lines 706-715). -/
def joinPath (path name : String) : String :=
  if path = "" then name else path ++ "/" ++ name

/-- The entry loop of recurseDumpDirectories (lines 679-733) fused with the
reopen performed by its recursive call: each good directory entry is pushed
(relative or full path by noBasePath), and, while the depth is nonzero, the
recursion descends into the child; a child whose opendir fails contributes
nothing, and the recursive return value is ignored by the source.  The
depth is the S32 argument, so the sentinel -1 never reaches zero. -/
def ddEnts (excl : List String) (bp : String) (nb : Bool) :
    String → List (String × FsNode) → Int → List String
  | _, [], _ => []
  | path, (name, child) :: rest, depth =>
    (if isGoodDir excl name child then
      (if nb then joinPath path name else bp ++ "/" ++ joinPath path name) ::
        (if depth ≠ 0 then
          (match child with
           | FsNode.dir true cs => ddEnts excl bp nb (joinPath path name) cs (depth - 1)
           | _ => [])
         else [])
     else []) ++ ddEnts excl bp nb path rest depth
termination_by path cs depth => sizeOf cs

/-- recurseDumpDirectories (lines 663-736): opendir on basePath/path, which
resolves to the given node; failure yields false and no entries. -/
def recurseDumpDirectories (excl : List String) (bp : String) (nb : Bool)
    (path : String) (node : FsNode) (depth : Int) : List String × Bool :=
  match node with
  | FsNode.dir true cs => (ddEnts excl bp nb path cs depth, true)
  | _ => ([], false)

/-- Platform::dumpDirectories (lines 739-759).  The trailing-slash strip in
the source tests index len-1, which holds the terminating NUL, so it never
fires and the path is used verbatim; the base path is pushed before the
recursion whenever noBasePath is false; the walk starts at the root node
with the empty relative path. -/
def Platform.dumpDirectories (excl : List String) (path : String)
    (root : FsNode) (depth : Int) (nb : Bool) : List String × Bool :=
  ((if nb then [] else [path]) ++
      (recurseDumpDirectories excl path nb "" root depth).1,
    (recurseDumpDirectories excl path nb "" root depth).2)

/-- Written from the words of the spec: an unbounded walk visits every
nested directory, skipping dot entries and excluded names, collecting
relative or full paths per the flag. -/
def specEnts (excl : List String) (bp : String) (nb : Bool) :
    String → List (String × FsNode) → List String
  | _, [] => []
  | path, (name, child) :: rest =>
    (if isGoodDir excl name child then
      (if nb then joinPath path name else bp ++ "/" ++ joinPath path name) ::
        (match child with
         | FsNode.dir true cs => specEnts excl bp nb (joinPath path name) cs
         | _ => [])
     else []) ++ specEnts excl bp nb path rest
termination_by path cs => sizeOf cs

/-- Written from the words of the spec: the immediate good subdirectories of
a root listing, formatted relative or full. -/
def immediateSubdirs (excl : List String) (bp : String) (nb : Bool) :
    List (String × FsNode) → List String
  | [] => []
  | (name, child) :: rest =>
    (if isGoodDir excl name child then
      [if nb then name else bp ++ "/" ++ name]
     else []) ++ immediateSubdirs excl bp nb rest

/-- Entry type reported by readdir (d_type). -/
inductive DType where
  | dir
  | reg
deriving DecidableEq, Repr

/-- One readdir entry: name and type. -/
structure OsEnt where
  name : String
  dtype : DType
deriving DecidableEq, Repr

/-- Platform::FileInfo: full path, file name, size. -/
structure FileInfo where
  pFullPath : String
  pFileName : String
  fileSize : Nat
deriving DecidableEq, Repr

/-- The entry loop of recurseDumpPath (lines 774-812).  The source builds
each child path into a zero-length buffer (the commented-out length leaves
len = 0), so dSprintf writes nothing and the bytes consulted afterwards are
unspecified: the embedding takes the constructed path as an arbitrary
function mkPath of the nominal inputs and resolves directories through an
arbitrary resolver, so every theorem below holds for every possible content
of that buffer.  Files are always collected, with pFullPath the current
directory, the entry name, and the size getFileSize reports for the
constructed path; directories are skipped at depth 0 (the U32 depth), are
filtered by isGoodDirectory, and are otherwise walked at depth - 1, an
unopenable one contributing nothing. -/
def dpEnts (resolve : String → Option (List OsEnt)) (fsize : String → Nat)
    (mkPath : String → String → String) (excl : List String) :
    Nat → String → List OsEnt → List FileInfo
  | _, _, [] => []
  | depth, curPath, e :: rest =>
    (match e.dtype with
     | DType.dir =>
       match depth with
       | 0 => []
       | d + 1 =>
         if e.name = "." ∨ e.name = ".." ∨ excl.contains e.name then []
         else
           match resolve (mkPath curPath e.name) with
           | none => []
           | some l => dpEnts resolve fsize mkPath excl d (mkPath curPath e.name) l
     | DType.reg => [⟨curPath, e.name, fsize (mkPath curPath e.name)⟩]) ++
      dpEnts resolve fsize mkPath excl depth curPath rest
termination_by depth curPath l => (depth, l.length)

/-- recurseDumpPath (lines 762-816): open curPath; on failure return false
with no entries; otherwise collect the listing. -/
def recurseDumpPath (resolve : String → Option (List OsEnt))
    (fsize : String → Nat) (mkPath : String → String → String)
    (excl : List String) (curPath : String) (depth : Nat) :
    List FileInfo × Bool :=
  match resolve curPath with
  | none => ([], false)
  | some l => (dpEnts resolve fsize mkPath excl depth curPath l, true)

/-- Platform::dumpPath (lines 820-835): strips one trailing separator from
the root and passes the signed depth through the U32 parameter of the
recursion (so -1 becomes 4294967295). -/
def Platform.dumpPath (resolve : String → Option (List OsEnt))
    (fsize : String → Nat) (mkPath : String → String → String)
    (excl : List String) (path : String) (depth : Int) :
    List FileInfo × Bool :=
  recurseDumpPath resolve fsize mkPath excl
    (if path.endsWith "/" then path.dropRight 1 else path)
    ((depth % 4294967296).toNat)

/-- Whether opendir succeeds on a node. -/
def openableDir : FsNode → Bool
  | FsNode.dir true _ => true
  | _ => false

end Torque

namespace Torque

/-- C7: File.close is idempotent: closing an already-closed handle returns
Closed without error and leaves the handle unchanged; a close that returned
Closed leaves a state whose next close again returns Closed; destructing a
never-opened handle does not fail; and on every exit path of close the native
stream resource is released (fclose was invoked, or there was no stream to
release). -/
theorem c7_close_idempotent :
    (∀ f ok e, f.currentStatus = Status.Closed →
        File.close f ok e = (f, Status.Closed, false)) ∧
    (∀ f ok e ok2 e2, (File.close f ok e).2.1 = Status.Closed →
        (File.close (File.close f ok e).1 ok2 e2).2.1 = Status.Closed) ∧
    (∀ ok e, File.close File.init ok e = (File.init, Status.Closed, false) ∧
        File.destruct File.init ok e = File.init) ∧
    (∀ f ok e, (f.currentStatus = Status.Closed → f.handle = none) →
        ((File.close f ok e).2.2 = true ∨ f.handle = none)) := by
  refine ⟨?_, ?_, ?_, ?_⟩
  · intro f ok e h
    simp [File.close, h]
  · intro f ok e ok2 e2 h
    by_cases hc : f.currentStatus = Status.Closed
    · simp [File.close, hc]
    · cases hh : f.handle with
      | none => simp [File.close, hc, hh]
      | some s =>
        cases ok with
        | true => simp [File.close, hc, hh]
        | false =>
          exfalso
          simp [File.close, hc, hh] at h
          cases e <;> simp [statusOfErrno] at h
  · intro ok e
    constructor
    · simp [File.close, File.init]
    · simp [File.destruct, File.close, File.init]
  · intro f ok e hinv
    by_cases hc : f.currentStatus = Status.Closed
    · exact Or.inr (hinv hc)
    · cases hh : f.handle with
      | none => exact Or.inr rfl
      | some s =>
        left
        cases ok <;> simp [File.close, hc, hh]

/-- C7 witness: the conjuncts applied at concrete inputs, with every
hypothesis discharged there. -/
theorem c7_close_idempotent_witness :
    File.close File.init true Errno.eacces = (File.init, Status.Closed, false) ∧
    (File.close (File.close File.init true Errno.other).1 false Errno.other).2.1 =
      Status.Closed ∧
    ((File.close File.init false Errno.eacces).2.2 = true ∨
      File.init.handle = none) :=
  ⟨c7_close_idempotent.1 File.init true Errno.eacces rfl,
   c7_close_idempotent.2.1 File.init true Errno.other false Errno.other (by decide),
   c7_close_idempotent.2.2.2 File.init false Errno.eacces (fun _ => rfl)⟩

/-- C10: on an open handle, read and write with size 0 return the current
status immediately: the handle (hence the stream) is unchanged and the
bytesRead / bytesWritten out-parameter is left untouched even when it is
non-null. -/
theorem c10_zero_size_frame (f : File) (ptr : Bool) (nBytes : Nat) (e : Errno)
    (hopen : f.currentStatus ≠ Status.Closed) :
    File.read f 0 ptr = (f, f.currentStatus, [], none) ∧
    File.write f 0 nBytes e ptr = (f, f.currentStatus, none) := by
  constructor
  · simp [File.read]
  · simp [File.write]

/-- C10 witness: the zero-size frame property at a concrete open handle. -/
theorem c10_zero_size_frame_witness :
    File.read (okFile [3] 0 1) 0 true = (okFile [3] 0 1, Status.Ok, [], none) ∧
    File.write (okFile [3] 0 1) 0 5 Errno.other true =
      (okFile [3] 0 1, Status.Ok, none) :=
  c10_zero_size_frame (okFile [3] 0 1) true 5 Errno.other (by decide)

/-- C1 counterexample: opening an empty file in ReadWrite mode acquires the
stream, yet the returned status is EOS, not Ok as the claim states: the
setPosition(0) performed for ReadWrite lands at end-of-file.  A fresh file
created by fopen in mode ab+ is exactly such an empty stream. -/
theorem c1_counterexample :
    (File.openFile File.init true Errno.other (some ⟨[], 0, false⟩) Errno.other
        Errno.other AccessMode.ReadWrite).2 = Status.EOS ∧
      Status.EOS ≠ Status.Ok := by
  exact ⟨rfl, by decide⟩

/-- C1 (amended): when the native stream cannot be acquired, the errno
classification (EACCES to IOError, every other value to UnknownError) is set
as the status and returned; when it is acquired, the capability is derived
from the mode (Read to FileRead, Write and WriteAppend to FileWrite,
ReadWrite to the union); for Read, Write and WriteAppend the returned status
is Ok, while for ReadWrite the position is set to offset 0 and the returned
status is the one produced by that repositioning: an errno classification if
the offset query fails, EOS if the file is empty, Ok otherwise. -/
theorem c1_open_spec (f : File) (closeOk : Bool) (closeErr openErr posErr : Errno)
    (res : Option FStream) (mode : AccessMode) :
    (res = none →
      (File.openFile f closeOk closeErr res openErr posErr mode).2 =
          statusOfErrno openErr ∧
      (File.openFile f closeOk closeErr res openErr posErr mode).1.currentStatus =
          statusOfErrno openErr ∧
      statusOfErrno Errno.eacces = Status.IOError ∧
      (openErr ≠ Errno.eacces → statusOfErrno openErr = Status.UnknownError)) ∧
    (∀ s, res = some s →
      ((mode = AccessMode.Read →
          (File.openFile f closeOk closeErr res openErr posErr mode).1.capability =
            FileRead) ∧
       (mode = AccessMode.Write ∨ mode = AccessMode.WriteAppend →
          (File.openFile f closeOk closeErr res openErr posErr mode).1.capability =
            FileWrite) ∧
       (mode = AccessMode.ReadWrite →
          (File.openFile f closeOk closeErr res openErr posErr mode).1.capability =
            (FileRead ||| FileWrite))) ∧
      (mode ≠ AccessMode.ReadWrite →
        (File.openFile f closeOk closeErr res openErr posErr mode).2 = Status.Ok) ∧
      (mode = AccessMode.ReadWrite →
        (File.openFile f closeOk closeErr res openErr posErr mode).1.handle =
          some { s with pos := 0 } ∧
        (File.openFile f closeOk closeErr res openErr posErr mode).2 =
          (if s.tellFails then statusOfErrno posErr
           else if s.contents.length % 4294967296 = 0 then Status.EOS
           else Status.Ok))) := by
  constructor
  · rintro rfl
    refine ⟨rfl, rfl, rfl, ?_⟩
    intro h
    cases openErr <;> first | exact absurd rfl h | rfl
  · rintro s rfl
    refine ⟨⟨?_, ?_, ?_⟩, ?_, ?_⟩
    · rintro rfl
      rfl
    · rintro (rfl | rfl) <;> rfl
    · rintro rfl
      cases ht : s.tellFails <;>
        by_cases hz : s.contents.length % 4294967296 = 0 <;>
          simp [File.openFile, File.setPosition, ftellU32, u32max, File.getSize,
            ht, hz]
    · intro h
      cases mode <;> first | exact absurd rfl h | rfl
    · rintro rfl
      constructor
      · cases ht : s.tellFails <;>
          by_cases hz : s.contents.length % 4294967296 = 0 <;>
            simp [File.openFile, File.setPosition, ftellU32, u32max, File.getSize,
              ht, hz]
      · cases ht : s.tellFails <;>
          by_cases hz : s.contents.length % 4294967296 = 0 <;>
            simp [File.openFile, File.setPosition, ftellU32, u32max, File.getSize,
              ht, hz]

/-- C1 witness: the amended statement applied at a concrete acquired stream
in Read mode, with the hypotheses discharged. -/
theorem c1_open_spec_witness :
    (File.openFile File.init true Errno.other (some ⟨[1], 0, false⟩) Errno.other
        Errno.other AccessMode.Read).2 = Status.Ok :=
  ((c1_open_spec File.init true Errno.other Errno.other Errno.other
      (some ⟨[1], 0, false⟩) AccessMode.Read).2 ⟨[1], 0, false⟩ rfl).2.1 (by decide)

/-- C2 counterexample: a read of size 0 on an Ok handle holding the read
capability leaves a non-null bytesRead out-parameter untouched instead of
storing the actual count 0. -/
theorem c2_counterexample :
    (File.read (okFile [7] 0 FileRead) 0 true).2.2.2 = none ∧
      (none : Option Nat) ≠ some 0 := by
  exact ⟨rfl, by decide⟩

/-- C2 (amended): for a read of positive size on an Ok handle with the read
capability, the bytes copied into dst are the next available stream bytes,
at most size many; the status becomes EOS exactly when fewer than size bytes
were available; and a non-null bytesRead receives the actual count read
(a read of size 0 instead returns immediately leaving bytesRead untouched). -/
theorem c2_read_spec (f : File) (s : FStream) (size : Nat) (ptr : Bool)
    (hs : f.currentStatus = Status.Ok) (hh : f.handle = some s)
    (hc : f.hasCapability FileRead = true) (hsize : 0 < size) :
    (File.read f size ptr).2.2.1 = (s.contents.drop s.pos).take size ∧
    (File.read f size ptr).2.2.1.length ≤ size ∧
    ((File.read f size ptr).1.currentStatus = Status.EOS ↔
        s.contents.length - s.pos < size) ∧
    ((File.read f size ptr).1.currentStatus = Status.Ok ↔
        ¬ s.contents.length - s.pos < size) ∧
    (ptr = true →
      (File.read f size ptr).2.2.2 = some (File.read f size ptr).2.2.1.length) := by
  have hsz : size ≠ 0 := Nat.pos_iff_ne_zero.mp hsize
  have hlen : ((s.contents.drop s.pos).take size).length =
      min size (s.contents.length - s.pos) := by
    simp [List.length_take, List.length_drop]
  refine ⟨?_, ?_, ?_, ?_, ?_⟩
  · simp [File.read, hs, hh, hsz]
  · simp only [File.read, hs, hh]
    simp [hsz, hlen]
  · by_cases h : s.contents.length - s.pos < size
    · have hmin : min size (s.contents.length - s.pos) ≠ size := by omega
      simp [File.read, hs, hh, hsz, hlen, hmin, h]
    · have hmin : min size (s.contents.length - s.pos) = size := by omega
      simp [File.read, hs, hh, hsz, hlen, hmin, h]
  · by_cases h : s.contents.length - s.pos < size
    · have hmin : min size (s.contents.length - s.pos) ≠ size := by omega
      simp [File.read, hs, hh, hsz, hlen, hmin, h]
    · have hmin : min size (s.contents.length - s.pos) = size := by omega
      simp [File.read, hs, hh, hsz, hlen, hmin, h]
  · rintro rfl
    simp [File.read, hs, hh, hsz]

/-- C2 witness: the amended read property at a concrete handle, rolling a
short read (2 of 5 requested bytes available). -/
theorem c2_read_spec_witness :
    (File.read (okFile [1, 2, 3] 1 FileRead) 5 true).2.2.1 = [2, 3] :=
  (c2_read_spec (okFile [1, 2, 3] 1 FileRead) ⟨[1, 2, 3], 1, false⟩ 5 true rfl rfl
    (by decide) (by decide)).1

/-- C6 counterexample: a write of size 0 on an Ok handle holding the write
capability leaves a non-null bytesWritten out-parameter untouched instead of
storing the actual count 0. -/
theorem c6_counterexample :
    (File.write (okFile [] 0 FileWrite) 0 0 Errno.other true).2.2 = none ∧
      (none : Option Nat) ≠ some 0 := by
  exact ⟨rfl, by decide⟩

/-- C6 (amended): for a write of positive size on an Ok or EOS handle with
the write capability, a non-null bytesWritten receives the count the stream
accepted, and an error status (IOError or UnknownError, by errno) is set
exactly when fewer than size bytes could be written (a write of size 0
instead returns immediately leaving bytesWritten untouched). -/
theorem c6_write_spec (f : File) (size nBytes : Nat) (e : Errno) (ptr : Bool)
    (hs : f.currentStatus = Status.Ok ∨ f.currentStatus = Status.EOS)
    (hc : f.hasCapability FileWrite = true) (hsize : 0 < size)
    (hn : nBytes ≤ size) :
    ((File.write f size nBytes e ptr).2.2 =
        if ptr then some nBytes else none) ∧
    (((File.write f size nBytes e ptr).1.currentStatus = Status.IOError ∨
      (File.write f size nBytes e ptr).1.currentStatus = Status.UnknownError) ↔
        nBytes < size) := by
  have hsz : size ≠ 0 := Nat.pos_iff_ne_zero.mp hsize
  have hcond : ¬ ((f.currentStatus ≠ Status.Ok ∧ f.currentStatus ≠ Status.EOS) ∨
      size = 0) := by
    rcases hs with h | h <;> simp [h, hsz]
  constructor
  · simp [File.write, hcond]
  · by_cases hne : nBytes = size
    · have hns : ¬ nBytes < size := by omega
      rcases hs with h | h <;> simp [File.write, hcond, hne, h, hns, hsz]
    · have hlt : nBytes < size := by omega
      cases e <;> simp [File.write, hcond, hne, statusOfErrno, hlt]

/-- C6 witness: the amended write property at a concrete handle, with a short
write of 1 of 4 requested bytes under errno EACCES. -/
theorem c6_write_spec_witness :
    ((File.write (okFile [] 0 FileWrite) 4 1 Errno.eacces true).1.currentStatus =
        Status.IOError ∨
     (File.write (okFile [] 0 FileWrite) 4 1 Errno.eacces true).1.currentStatus =
        Status.UnknownError) :=
  ((c6_write_spec (okFile [] 0 FileWrite) 4 1 Errno.eacces true (Or.inl rfl)
      (by decide) (by decide) (by decide)).2).mpr (by decide)

end Torque

namespace Torque

/-- Normal form of setPosition on an open Ok/EOS handle whose offset query
succeeds and whose quantities stay below the U32 sentinel. -/
theorem setPosition_normal (f : File) (s : FStream) (position : Int)
    (absolutePos : Bool) (e : Errno) (t : Nat)
    (hh : f.handle = some s)
    (hs : f.currentStatus = Status.Ok ∨ f.currentStatus = Status.EOS)
    (ht : s.tellFails = false)
    (hT : t = (if absolutePos then position else (s.pos : Int) + position).toNat)
    (hlen : s.contents.length < u32max)
    (htarget : t < u32max) :
    (File.setPosition f position absolutePos e).1.handle = some { s with pos := t } ∧
    (File.setPosition f position absolutePos e).2 =
      (if s.contents.length ≤ t then Status.EOS else Status.Ok) ∧
    (File.setPosition f position absolutePos e).1.currentStatus =
      (File.setPosition f position absolutePos e).2 := by
  have hcond : ¬ (f.currentStatus ≠ Status.Ok ∧ f.currentStatus ≠ Status.EOS) := by
    rcases hs with h | h <;> simp [h]
  simp only [File.setPosition, if_neg hcond, hh]
  simp only [← hT]
  have hmod : t % 4294967296 = t := by
    have hu : u32max = 4294967295 := rfl
    omega
  have hlmod : s.contents.length % 4294967296 = s.contents.length := by
    have hu : u32max = 4294967295 := rfl
    omega
  have hne2 : t ≠ u32max := Nat.ne_of_lt htarget
  rcases hs with h | h <;>
    simp [ftellU32, ht, hmod, hne2, File.getSize, h, hlmod] <;>
    by_cases hle : s.contents.length ≤ t <;>
    simp [hle]

/-- C3: setPosition on an open handle with status Ok or EOS: when the
post-seek offset query reports the invalid sentinel, the errno
classification (an error status) is set and returned; on success the status
becomes EOS exactly when the resulting offset sits at or past end-of-file
and Ok otherwise; setPosition 0 absolute followed by getPosition yields 0;
and setPosition size absolute followed by a read leaves the status EOS. -/
theorem c3_setPosition_spec (f : File) (s : FStream) (position : Int)
    (absolutePos : Bool) (e : Errno)
    (hh : f.handle = some s)
    (hs : f.currentStatus = Status.Ok ∨ f.currentStatus = Status.EOS)
    (hnonneg : 0 ≤ if absolutePos then position else (s.pos : Int) + position)
    (hlen : s.contents.length < u32max)
    (htarget : (if absolutePos then position else (s.pos : Int) + position).toNat
        < u32max) :
    (s.tellFails = true →
      (File.setPosition f position absolutePos e).2 = statusOfErrno e ∧
      ((File.setPosition f position absolutePos e).2 = Status.IOError ∨
       (File.setPosition f position absolutePos e).2 = Status.UnknownError)) ∧
    (s.tellFails = false →
      ((File.setPosition f position absolutePos e).2 = Status.EOS ↔
        s.contents.length ≤
          (if absolutePos then position else (s.pos : Int) + position).toNat) ∧
      ((File.setPosition f position absolutePos e).2 = Status.Ok ↔
        (if absolutePos then position else (s.pos : Int) + position).toNat <
          s.contents.length) ∧
      (File.setPosition f position absolutePos e).1.currentStatus =
        (File.setPosition f position absolutePos e).2) ∧
    (s.tellFails = false →
      File.getPosition (File.setPosition f 0 true e).1 = 0) ∧
    (s.tellFails = false → ∀ sz ptr,
      (File.setPosition f (s.contents.length : Int) true e).2 = Status.EOS ∧
      (((File.setPosition f (s.contents.length : Int) true e).1.read sz
          ptr).1.currentStatus = Status.EOS)) := by
  have hcond : ¬ (f.currentStatus ≠ Status.Ok ∧ f.currentStatus ≠ Status.EOS) := by
    rcases hs with h | h <;> simp [h]
  refine ⟨?_, ?_, ?_, ?_⟩
  · intro ht
    have hfail : (File.setPosition f position absolutePos e).2 = statusOfErrno e := by
      simp [File.setPosition, hcond, hh, ftellU32, ht]
    refine ⟨hfail, ?_⟩
    rw [hfail]
    cases e <;> simp [statusOfErrno]
  · intro ht
    obtain ⟨h1, h2, h3⟩ := setPosition_normal f s position absolutePos e _ hh hs ht
      rfl hlen htarget
    refine ⟨?_, ?_, h3⟩
    · rw [h2]
      by_cases hle : s.contents.length ≤
          (if absolutePos then position else (s.pos : Int) + position).toNat <;>
        simp [hle]
    · rw [h2]
      by_cases hle : s.contents.length ≤
          (if absolutePos then position else (s.pos : Int) + position).toNat <;>
        simp [hle] <;> omega
  · intro ht
    have h0 : ((0 : Int)).toNat < u32max := by simp [u32max]
    obtain ⟨h1, h2, h3⟩ := setPosition_normal f s 0 true e 0 hh hs ht (by simp)
      hlen h0
    simp [File.getPosition, h1, ftellU32, ht]
  · intro ht sz ptr
    have hT : ((s.contents.length : Int)).toNat = s.contents.length := by simp
    obtain ⟨h1, h2, h3⟩ := setPosition_normal f s (s.contents.length : Int) true e
      s.contents.length hh hs ht (by simp) hlen hlen
    have heos : (File.setPosition f (s.contents.length : Int) true e).2 =
        Status.EOS := by
      rw [h2]
      simp
    refine ⟨heos, ?_⟩
    have hst : (File.setPosition f (s.contents.length : Int) true e).1.currentStatus =
        Status.EOS := by rw [h3, heos]
    simp [File.read, hst]

/-- C3 witness: the setPosition facts at a concrete two-byte handle, seeking
absolutely to offset 1. -/
theorem c3_setPosition_spec_witness :
    (File.setPosition (okFile [5, 6] 0 FileRead) 1 true Errno.other).2 = Status.Ok ↔
      (if true then (1 : Int) else ((0 : Nat) : Int) + 1).toNat < [5, 6].length :=
  ((c3_setPosition_spec (okFile [5, 6] 0 FileRead) ⟨[5, 6], 0, false⟩ 1 true
      Errno.other rfl (Or.inl rfl) (by decide) (by decide) (by decide)).2.1
        rfl).2.1

end Torque

namespace Torque

/-- C8 counterexample: isSubDirectory applies no null/empty guard; with an
empty parent it asks whether slash-sub is a directory, which is true here,
not the failure value false that the claim demands for empty paths. -/
theorem c8_counterexample :
    Platform.isSubDirectory [⟨("/b").toList, FKind.dir, 0, 0, 0⟩] "" "b" = true ∧
      true ≠ false := by
  exact ⟨rfl, by decide⟩

/-- C8 (amended): fileDelete, dFileTouch, getFileTimes, isFile, isDirectory
and getFileSize each treat a null or empty path as a no-op failure: the
filesystem is unchanged and the failure value (false, or 0 for getFileSize)
is returned without any error.  isSubDirectory performs no such guard: it
reports whether the joined path parent-slash-sub names a directory, which
can be true even when an argument is empty. -/
theorem c8_path_totality :
    (∀ fs, Platform.fileDelete fs none = (fs, false) ∧
        Platform.fileDelete fs (some "") = (fs, false)) ∧
    (∀ fs now, dFileTouch fs none now = (fs, false) ∧
        dFileTouch fs (some "") now = (fs, false)) ∧
    (∀ fs c m, Platform.getFileTimes fs none c m = (false, none, none) ∧
        Platform.getFileTimes fs (some "") c m = (false, none, none)) ∧
    (∀ fs, Platform.isFile fs none = false ∧
        Platform.isFile fs (some "") = false) ∧
    (∀ fs, Platform.isDirectory fs none = false ∧
        Platform.isDirectory fs (some "") = false) ∧
    (∀ fs, Platform.getFileSize fs none = 0 ∧
        Platform.getFileSize fs (some "") = 0) ∧
    Platform.isSubDirectory [⟨("/b").toList, FKind.dir, 0, 0, 0⟩] "" "b" = true := by
  refine ⟨fun fs => ⟨rfl, rfl⟩, fun fs now => ⟨rfl, rfl⟩,
    fun fs c m => ⟨rfl, rfl⟩, fun fs => ⟨rfl, rfl⟩, fun fs => ⟨rfl, rfl⟩,
    fun fs => ⟨rfl, rfl⟩, rfl⟩

/-- Dropping a run of leading matches never lengthens a list. -/
theorem length_dropWhileSlash (l : List Char) :
    (l.dropWhile (fun c => c == '/')).length ≤ l.length := by
  induction l with
  | nil => simp
  | cons c t ih =>
    by_cases h : c = '/'
    · rw [List.dropWhile_cons]
      simp [h]
      omega
    · rw [List.dropWhile_cons]
      simp [h]

/-- A path ending in a separator strictly shrinks when trailing separators
are stripped. -/
theorem dropTrailingSlashes_length_lt {p : List Char} (h : p.getLast? = some '/') :
    (dropTrailingSlashes p).length < p.length := by
  have hh : p.reverse.head? = some '/' := by
    rw [List.head?_reverse]
    exact h
  cases hr : p.reverse with
  | nil => rw [hr] at hh; simp at hh
  | cons c t =>
    rw [hr] at hh
    simp at hh
    have hd : dropTrailingSlashes p = (t.dropWhile (fun c => c == '/')).reverse := by
      simp [dropTrailingSlashes, hr, hh, List.dropWhile_cons]
    have hplen : p.length = t.length + 1 := by
      have h1 : p.reverse.length = t.length + 1 := by rw [hr]; simp
      simpa using h1
    rw [hd]
    have h2 := length_dropWhileSlash t
    simp
    omega

/-- Stripping trailing separators changes a separator-terminated path. -/
theorem dropTrailingSlashes_ne {p : List Char} (h : p.getLast? = some '/') :
    dropTrailingSlashes p ≠ p := by
  intro he
  have h1 := dropTrailingSlashes_length_lt h
  rw [he] at h1
  omega

/-- Success characterization of the model mkdir: the new state appends one
directory entry for the stripped path, which was fresh and nonempty. -/
theorem mkdirP_success {fs fs1 : OsFs} {p : List Char}
    (h : mkdirP fs p = (fs1, true)) :
    fs1 = fs ++ [⟨dropTrailingSlashes p, FKind.dir, 0, 0, 0⟩] ∧
      dropTrailingSlashes p ≠ [] ∧ lookupFs fs (dropTrailingSlashes p) = none := by
  simp only [mkdirP] at h
  split at h
  · exact absurd h (by simp)
  · next hq =>
    split at h
    · exact absurd h (by simp)
    · next hl =>
      have hlz : lookupFs fs (dropTrailingSlashes p) = none := by
        cases hx : lookupFs fs (dropTrailingSlashes p) with
        | none => rfl
        | some v => rw [hx] at hl; simp at hl
      split at h
      · injection h with h1 h2
        exact ⟨h1.symm, hq, hlz⟩
      · split at h
        · injection h with h1 h2
          exact ⟨h1.symm, hq, hlz⟩
        · split at h
          · split at h
            · injection h with h1 h2
              exact ⟨h1.symm, hq, hlz⟩
            · exact absurd h (by simp)
          · exact absurd h (by simp)

/-- Appending a fresh entry makes it the lookup result for its path. -/
theorem lookupFs_append_self (fs : OsFs) (ent : Ent) (q : List Char)
    (hp : ent.path = q) (h : lookupFs fs q = none) :
    lookupFs (fs ++ [ent]) q = some ent := by
  unfold lookupFs at h ⊢
  rw [List.find?_append, h]
  simp [hp]

/-- A successful mkdir on a separator-terminated path makes it resolvable. -/
theorem mkdirP_statP {fs fs1 : OsFs} {file : List Char}
    (h : mkdirP fs file = (fs1, true)) (hd : file.getLast? = some '/') :
    (statP fs1 file).isSome := by
  have hfile : file ≠ [] := by
    intro he
    rw [he] at hd
    simp at hd
  have hne := dropTrailingSlashes_ne hd
  obtain ⟨hfs1, hq, hlz⟩ := mkdirP_success h
  subst hfs1
  have hfind := lookupFs_append_self fs
    ⟨dropTrailingSlashes file, FKind.dir, 0, 0, 0⟩ (dropTrailingSlashes file) rfl hlz
  simp only [statP]
  rw [if_neg hfile, if_neg hne, if_neg hq, hfind]
  simp

/-- A successful createPath run on a separator-terminated path leaves the
target resolvable, whatever the budget. -/
theorem createPathFuel_statP (fuel : Nat) :
    ∀ fs file fs1, createPathFuel fuel fs file = (fs1, true) →
      file.getLast? = some '/' → (statP fs1 file).isSome := by
  cases fuel with
  | zero =>
    intro fs file fs1 h hd
    simp [createPathFuel] at h
  | succ n =>
    intro fs file fs1 h hd
    simp only [createPathFuel] at h
    split at h
    · next hst =>
      injection h with h1 h2
      rw [← h1]
      exact hst
    · split at h
      · split at h
        · split at h
          · exact mkdirP_statP h hd
          · exact absurd h (by simp)
        · exact mkdirP_statP h hd
      · exact mkdirP_statP h hd

/-- C9: createPath returns true immediately, touching nothing, when the
target already resolves; a successful run on a directory path (trailing
separator) leaves the target resolvable, the recursion on the parent path
having created the ancestors first; concretely, createPath a/b/c/ on the
empty root creates exactly the directories a, a/b and a/b/c, and a second
call is a no-op returning true. -/
theorem c9_createPath (fs : OsFs) (file : List Char)
    (hex : (statP fs file).isSome) :
    Platform.createPath fs file = (fs, true) ∧
    (∀ fs0 g fs1, Platform.createPath fs0 g = (fs1, true) →
        g.getLast? = some '/' → (statP fs1 g).isSome) ∧
    Platform.createPath [] ("a/b/c/").toList =
      ([⟨("a").toList, FKind.dir, 0, 0, 0⟩, ⟨("a/b").toList, FKind.dir, 0, 0, 0⟩,
        ⟨("a/b/c").toList, FKind.dir, 0, 0, 0⟩], true) ∧
    Platform.createPath
      [⟨("a").toList, FKind.dir, 0, 0, 0⟩, ⟨("a/b").toList, FKind.dir, 0, 0, 0⟩,
        ⟨("a/b/c").toList, FKind.dir, 0, 0, 0⟩] ("a/b/c/").toList =
      ([⟨("a").toList, FKind.dir, 0, 0, 0⟩, ⟨("a/b").toList, FKind.dir, 0, 0, 0⟩,
        ⟨("a/b/c").toList, FKind.dir, 0, 0, 0⟩], true) := by
  refine ⟨?_, ?_, ?_, ?_⟩
  · simp [Platform.createPath, createPathFuel, hex]
  · intro fs0 g fs1 h hd
    exact createPathFuel_statP (g.length + 1) fs0 g fs1 h hd
  · rfl
  · rfl

/-- C9 witness: the no-op and resolvability conjuncts applied at concrete
inputs, every hypothesis discharged. -/
theorem c9_createPath_witness :
    Platform.createPath [⟨("a").toList, FKind.dir, 0, 0, 0⟩] ("a").toList =
      ([⟨("a").toList, FKind.dir, 0, 0, 0⟩], true) ∧
    (statP
      [⟨("a").toList, FKind.dir, 0, 0, 0⟩, ⟨("a/b").toList, FKind.dir, 0, 0, 0⟩,
        ⟨("a/b/c").toList, FKind.dir, 0, 0, 0⟩] (("a/b/c/").toList)).isSome :=
  ⟨(c9_createPath [⟨("a").toList, FKind.dir, 0, 0, 0⟩] ("a").toList (by decide)).1,
   (c9_createPath [⟨("a").toList, FKind.dir, 0, 0, 0⟩] ("a").toList (by decide)).2.1
     [] ("a/b/c/").toList _ rfl rfl⟩

end Torque

namespace Torque

/-- Helper for the depth-0 characterization: at depth 0 the walk lists
exactly the immediate good subdirectories. -/
theorem dd_depth0 (excl : List String) (bp : String) (nb : Bool)
    (cs : List (String × FsNode)) :
    ddEnts excl bp nb "" cs 0 = immediateSubdirs excl bp nb cs := by
  induction cs with
  | nil => simp [ddEnts, immediateSubdirs]
  | cons e rest ih =>
    obtain ⟨name, child⟩ := e
    cases child with
    | file =>
      simp [ddEnts, immediateSubdirs, isGoodDir, ih]
    | dir op cs2 =>
      cases op <;>
        simp [ddEnts, immediateSubdirs, joinPath, ih]

/-- Helper for the unbounded-walk refinement: a negative depth never
reaches 0, so the walk coincides with the depth-free walk written from the
spec. -/
theorem dd_unbounded (excl : List String) (bp : String) (nb : Bool) :
    ∀ (path : String) (cs : List (String × FsNode)) (depth : Int), depth < 0 →
      ddEnts excl bp nb path cs depth = specEnts excl bp nb path cs := by
  intro path cs depth
  induction path, cs, depth using ddEnts.induct excl bp nb with
  | case1 x d => intro h; simp [ddEnts, specEnts]
  | case2 path name child rest depth ih1 ih2 =>
    intro h
    have hd1 : depth - 1 < 0 := by omega
    have hdz : depth ≠ 0 := by omega
    cases child with
    | file =>
      simp [ddEnts, specEnts, isGoodDir, ih2 h]
    | dir op cs2 =>
      cases op with
      | false =>
        simp [ddEnts, specEnts, hdz, ih2 h]
      | true =>
        simp only at ih1
        simp [ddEnts, specEnts, hdz, ih2 h, ih1 hd1]

/-- Helper for the never-appended property: every collected entry is the
formatted path of some entry whose name is not a dot entry and not
excluded. -/
theorem dd_member (excl : List String) (bp : String) (nb : Bool) :
    ∀ (path : String) (cs : List (String × FsNode)) (depth : Int) (x : String),
      x ∈ ddEnts excl bp nb path cs depth →
      ∃ q n, (n ≠ "." ∧ n ≠ ".." ∧ n ∉ excl) ∧
        x = (if nb then joinPath q n else bp ++ "/" ++ joinPath q n) := by
  intro path cs depth
  induction path, cs, depth using ddEnts.induct excl bp nb with
  | case1 x d => intro y hy; simp [ddEnts] at hy
  | case2 path name child rest depth ih1 ih2 =>
    intro y hy
    cases child with
    | file =>
      rw [show ddEnts excl bp nb path ((name, FsNode.file) :: rest) depth =
          ddEnts excl bp nb path rest depth by simp [ddEnts, isGoodDir]] at hy
      exact ih2 y hy
    | dir op cs2 =>
      by_cases hg : isGoodDir excl name (FsNode.dir op cs2) = true
      · have hgood : name ≠ "." ∧ name ≠ ".." ∧ name ∉ excl := by
          simp [isGoodDir] at hg
          exact ⟨hg.1.1, hg.1.2, hg.2⟩
        cases op with
        | false =>
          simp [ddEnts, hg] at hy
          rcases hy with hy | hy
          · exact ⟨path, name, hgood, hy⟩
          · exact ih2 y hy
        | true =>
          simp only at ih1
          simp [ddEnts, hg] at hy
          rcases hy with hy | hy | hy
          · exact ⟨path, name, hgood, hy⟩
          · exact ih1 y hy.2
          · exact ih2 y hy
      · cases op with
        | false =>
          simp [ddEnts, hg] at hy
          exact ih2 y hy
        | true =>
          simp [ddEnts, hg] at hy
          exact ih2 y hy

/-- C4 counterexample: with noBasePath false, dumpDirectories at depth 0
also returns the root path itself (pushed before the recursion), so the
output is not only the immediate subdirectories of the root. -/
theorem c4_counterexample :
    (Platform.dumpDirectories [] "r" (FsNode.dir true [("s", FsNode.dir true [])])
        0 false).1 = ["r", "r/s"] ∧
      (["r", "r/s"] : List String) ≠ ["r/s"] := by
  constructor
  · simp [Platform.dumpDirectories, recurseDumpDirectories, ddEnts, isGoodDir,
      joinPath]
  · decide

/-- C4 (amended): a depth-0 dumpDirectories walk appends the root path
(when noBasePath is false) followed by exactly the immediate good
subdirectories of the root; a walk with the sentinel -1 coincides with the
unbounded walk that visits every nested directory; and every appended entry
of the recursion is the relative path of some visited entry, or the base
path joined to it, selected by noBasePath, whose name is never a dot entry
nor a name on the exclusion list. -/
theorem c4_dumpDirectories_spec :
    (∀ excl path cs nb,
        Platform.dumpDirectories excl path (FsNode.dir true cs) 0 nb =
          ((if nb then [] else [path]) ++ immediateSubdirs excl path nb cs, true)) ∧
    (∀ excl bp nb path cs (depth : Int), depth < 0 →
        ddEnts excl bp nb path cs depth = specEnts excl bp nb path cs) ∧
    (∀ excl bp nb path cs (depth : Int) (x : String),
        x ∈ ddEnts excl bp nb path cs depth →
        ∃ q n, (n ≠ "." ∧ n ≠ ".." ∧ n ∉ excl) ∧
          x = (if nb then joinPath q n else bp ++ "/" ++ joinPath q n)) := by
  refine ⟨?_, ?_, ?_⟩
  · intro excl path cs nb
    simp [Platform.dumpDirectories, recurseDumpDirectories, dd_depth0]
  · intro excl bp nb path cs depth h
    exact dd_unbounded excl bp nb path cs depth h
  · intro excl bp nb path cs depth x hx
    exact dd_member excl bp nb path cs depth x hx

/-- C4 witness: the unbounded-walk and membership conjuncts applied at
concrete inputs, hypotheses discharged there. -/
theorem c4_dumpDirectories_spec_witness :
    ddEnts [".svn"] "r" false "" [("s", FsNode.dir true [])] (-1) =
      specEnts [".svn"] "r" false "" [("s", FsNode.dir true [])] ∧
    (∃ q n, (n ≠ "." ∧ n ≠ ".." ∧ n ∉ ([] : List String)) ∧
      "r/s" = (if false then joinPath q n else "r" ++ "/" ++ joinPath q n)) :=
  ⟨c4_dumpDirectories_spec.2.1 [".svn"] "r" false "" [("s", FsNode.dir true [])]
      (-1) (by decide),
   c4_dumpDirectories_spec.2.2 [] "r" false "" [("s", FsNode.dir true [])] 0 "r/s"
      (by simp [ddEnts, isGoodDir, joinPath])⟩

/-- C5: both walkers return false exactly when the root cannot be opened as
a directory; a nested directory that fails to open yields no entries and
false, a value the callers ignore, so the overall walk on an openable root
still returns true. -/
theorem c5_walkers_failure :
    (∀ excl path root depth nb,
        ((Platform.dumpDirectories excl path root depth nb).2 = false ↔
          openableDir root = false)) ∧
    (∀ resolve fsize mkPath excl path (depth : Int),
        ((Platform.dumpPath resolve fsize mkPath excl path depth).2 = false ↔
          resolve (if path.endsWith "/" then path.dropRight 1 else path) = none)) ∧
    (∀ excl bp nb path sub (depth : Int),
        recurseDumpDirectories excl bp nb path (FsNode.dir false sub) depth =
          ([], false)) ∧
    (∀ excl bp nb path cs (depth : Int),
        (recurseDumpDirectories excl bp nb path (FsNode.dir true cs) depth).2 =
          true) ∧
    (∀ resolve fsize mkPath excl curPath (depth : Nat), resolve curPath = none →
        recurseDumpPath resolve fsize mkPath excl curPath depth = ([], false)) ∧
    (∀ resolve fsize mkPath excl curPath (depth : Nat) l, resolve curPath = some l →
        (recurseDumpPath resolve fsize mkPath excl curPath depth).2 = true) := by
  refine ⟨?_, ?_, ?_, ?_, ?_, ?_⟩
  · intro excl path root depth nb
    cases root with
    | file =>
      simp [Platform.dumpDirectories, recurseDumpDirectories, openableDir]
    | dir op cs =>
      cases op <;>
        simp [Platform.dumpDirectories, recurseDumpDirectories, openableDir]
  · intro resolve fsize mkPath excl path depth
    unfold Platform.dumpPath recurseDumpPath
    cases hr : resolve (if path.endsWith "/" then path.dropRight 1 else path) <;>
      simp [hr]
  · intro excl bp nb path sub depth
    rfl
  · intro excl bp nb path cs depth
    rfl
  · intro resolve fsize mkPath excl curPath depth h
    simp [recurseDumpPath, h]
  · intro resolve fsize mkPath excl curPath depth l h
    simp [recurseDumpPath, h]

/-- C5 witness: the recurseDumpPath conjuncts applied at concrete oracles,
hypotheses discharged there. -/
theorem c5_walkers_failure_witness :
    recurseDumpPath (fun _ => none) (fun _ => 0) (fun p n => p ++ "/" ++ n) []
        "root" 3 = ([], false) ∧
    (recurseDumpPath (fun _ => some []) (fun _ => 0) (fun p n => p ++ "/" ++ n) []
        "root" 3).2 = true :=
  ⟨c5_walkers_failure.2.2.2.2.1 (fun _ => none) (fun _ => 0)
      (fun p n => p ++ "/" ++ n) [] "root" 3 rfl,
   c5_walkers_failure.2.2.2.2.2 (fun _ => some []) (fun _ => 0)
      (fun p n => p ++ "/" ++ n) [] "root" 3 [] rfl⟩

end Torque
